import Mathlib

/-!
Verification of the Azure DevOps permissions auditor
(`ado_permissions_auditor.py`) against its specification.

The Python source is shallowly embedded: JSON attribute bags become
structures with `Option String` fields (a missing key is `none`, so
Python's `d.get(k, default)` is `field.getD default`); the process-wide
caches and counters become an explicit `AuditorState` threaded through
every operation; the network becomes a `World` (a pure map from request
keys to the responses the remote service would give); recursion over the
group graph takes a fuel parameter, since the source recursion has no
structural bound.
-/

namespace AdoAudit

/-- Association-list lookup used to model the Python `dict` caches
(`descriptor in cache` / `cache[descriptor]`). -/
def cacheGet {α : Type} : List (String × α) → String → Option α
  | [], _ => none
  | (k, v) :: rest, key => if k = key then some v else cacheGet rest key

/-- Model of `cache[key] = value`: later writes shadow earlier ones. -/
def cachePut {α : Type} (m : List (String × α)) (key : String) (v : α) :
    List (String × α) :=
  (key, v) :: m

theorem cacheGet_cachePut_self {α : Type} (m : List (String × α)) (key : String) (v : α) :
    cacheGet (cachePut m key v) key = some v := by
  simp [cacheGet, cachePut]

/-- Python's `str.lower()` on the ASCII range (the range every
attribute value compared by the source uses). -/
def strToLower (s : String) : String :=
  String.mk (s.data.map Char.toLower)

/-- Contiguous-sublist test on character lists, the meaning of
Python's `needle in haystack` for strings. -/
def charsContain (needle : List Char) : List Char → Bool
  | [] => needle.isPrefixOf []
  | c :: rest => needle.isPrefixOf (c :: rest) || charsContain needle rest

/-- Python's substring test `needle in haystack`. -/
def strContains (haystack needle : String) : Bool :=
  charsContain needle.toList haystack.toList

/-- An identity record as returned by the graph API
(`_apis/graph/users|groups/{descriptor}`). Fields mirror the keys the
auditor reads; `none` models a missing key. -/
structure Identity where
  descriptor : Option String
  displayName : Option String
  principalName : Option String
  subjectKind : Option String
  domain : Option String
  originId : Option String
deriving DecidableEq

/-- The `MemberType` enum of the source. -/
inductive MemberType where
  | user
  | group
  | servicePrincipal
  | aadGroup
  | unknown
deriving DecidableEq

/-- The string payloads of the `MemberType` enum values. -/
def MemberType.value : MemberType → String
  | .user => "user"
  | .group => "group"
  | .servicePrincipal => "service_principal"
  | .aadGroup => "aad_group"
  | .unknown => "unknown"

/-- Embedding of `_determine_member_type` (lines 591-607): classify a
member record from its `subjectKind`, `domain` and `principalName`
attributes, all lowercased first. -/
def determineMemberType (member : Identity) : MemberType :=
  let subject_kind := strToLower (member.subjectKind.getD "")
  let domain := strToLower (member.domain.getD "")
  let principal_name := strToLower (member.principalName.getD "")
  if subject_kind = "group" then
    MemberType.aadGroup
  else if subject_kind = "user" then
    if strContains principal_name "app@" = true ∨ domain = "build" then
      MemberType.servicePrincipal
    else
      MemberType.user
  else if strContains domain "serviceaccount" = true ∨ strContains domain "build" = true then
    MemberType.servicePrincipal
  else
    MemberType.unknown

/-- The `PermissionEntry` dataclass: one flat permission fact. -/
structure PermissionEntry where
  project_name : String
  project_id : String
  user_principal_name : String
  user_display_name : String
  user_id : String
  user_type : String
  vsts_group_name : String
  vsts_group_id : String
  assignment_type : String
  aad_group_chain : String
deriving DecidableEq

/-- Embedding of `_create_permission_entry` (lines 737-791): build a
`PermissionEntry` from member details, or `none` when the member has
neither a principal name nor a display name. -/
def createPermissionEntry (project_name project_id : String) (member : Identity)
    (vsts_group_name vsts_group_id assignment_type aad_chain : String) :
    Option PermissionEntry :=
  let principal_name := member.principalName.getD ""
  let display_name := member.displayName.getD ""
  let user_id := match member.originId with
    | some o => o
    | none => member.descriptor.getD ""
  let member_type := determineMemberType member
  if principal_name = "" ∧ display_name = "" then
    none
  else
    some
      { project_name := project_name
        project_id := project_id
        user_principal_name := if principal_name = "" then display_name else principal_name
        user_display_name := if display_name = "" then principal_name else display_name
        user_id := user_id
        user_type := member_type.value
        vsts_group_name := vsts_group_name
        vsts_group_id := vsts_group_id
        assignment_type := assignment_type
        aad_group_chain := aad_chain }

/-! ## The rate-aware request executor (`_make_request`, lines 156-320)

A call is embedded as a function over the sequence of responses the
remote server would give to the successive attempts of this one call
(`List Resp`).  Sleeps (`asyncio.sleep`) are recorded in a `sleeps`
trace; the statistics counters and the error ledger are carried in a
`ReqState`.  Wall-clock timestamps are abstracted by the monotone count
of attempts made so far. -/

/-- One entry of the process-wide error ledger (`self.errors`,
appended by `_log_error`, lines 309-320). -/
structure ErrorRecord where
  timestamp : Nat
  error_type : String
  url : String
  context : String
  status : Nat
  message : String
deriving DecidableEq

/-- Statistics and traces of the request executor. -/
structure ReqState where
  apiCalls : Nat
  apiErrors : Nat
  rateLimitHits : Nat
  sleeps : List Nat
  errors : List ErrorRecord
deriving DecidableEq

/-- A fresh executor state: all counters zero, empty ledger. -/
def initReq : ReqState :=
  { apiCalls := 0, apiErrors := 0, rateLimitHits := 0, sleeps := [], errors := [] }

/-- Embedding of the paired `self.stats["api_errors"] += 1` and
`self._log_error(...)` calls that always occur together in the source. -/
def logError (s : ReqState) (error_type url context : String) (status : Nat)
    (message : String) : ReqState :=
  { s with
    apiErrors := s.apiErrors + 1
    errors := s.errors ++
      [{ timestamp := s.apiCalls, error_type := error_type, url := url,
         context := context, status := status, message := message }] }

/-- One simulated outcome of a single HTTP attempt, classified the way
the `response.status` dispatch in `_make_request` classifies it. -/
inductive Resp where
  | rateLimited (retryAfter : Option Nat)
  | notFound
  | authFailed (status : Nat) (body : String)
  | clientError (status : Nat) (body : String)
  | serverError (status : Nat) (body : String)
  | okJson (body : String)
  | decodeFailure (status : Nat) (msg : String)
  | timedOut
  | transportError (msg : String)
deriving DecidableEq

/-- `max_retries` (line 193). -/
def maxRetries : Nat := 3

/-- `backoff_base` (line 194). -/
def backoffBase : Nat := 2

/-- Embedding of the `while retry_count <= max_retries` loop of
`_make_request` (lines 196-307).  Each recursive step consumes the next
simulated response; a single shared `retryCount` governs both the
rate-limit path and the backoff exponent, exactly as in the source.
When the budget is exhausted (counter above `maxRetries`) the loop
exits and the function returns `none` with no further bookkeeping
(line 307). -/
def makeRequestLoop (url context : String) :
    List Resp → Nat → ReqState → Option String × ReqState
  | [], _, s => (none, s)
  | resp :: rest, retryCount, s =>
    if retryCount > maxRetries then (none, s)
    else
      let s := { s with apiCalls := s.apiCalls + 1 }
      match resp with
      | .rateLimited retryAfter =>
        let s := { s with
          rateLimitHits := s.rateLimitHits + 1
          sleeps := s.sleeps ++ [retryAfter.getD 60] }
        makeRequestLoop url context rest (retryCount + 1) s
      | .notFound => (none, s)
      | .authFailed status body =>
        (none, logError s "auth_error" url context status body)
      | .clientError status body =>
        (none, logError s "client_error" url context status body)
      | .serverError status body =>
        if retryCount < maxRetries then
          let s := { s with sleeps := s.sleeps ++ [backoffBase ^ retryCount] }
          makeRequestLoop url context rest (retryCount + 1) s
        else
          (none, logError s "server_error" url context status body)
      | .okJson body => (some body, s)
      | .decodeFailure status msg =>
        (none, logError s "json_error" url context status msg)
      | .timedOut =>
        if retryCount < maxRetries then
          let s := { s with sleeps := s.sleeps ++ [backoffBase ^ retryCount] }
          makeRequestLoop url context rest (retryCount + 1) s
        else
          (none, logError s "timeout" url context 0 "Request timeout")
      | .transportError msg =>
        if retryCount < maxRetries then
          let s := { s with sleeps := s.sleeps ++ [backoffBase ^ retryCount] }
          makeRequestLoop url context rest (retryCount + 1) s
        else
          (none, logError s "client_exception" url context 0 msg)

/-- `_make_request` itself: run the retry loop from `retry_count = 0`. -/
def makeRequest (url context : String) (script : List Resp) (s : ReqState) :
    Option String × ReqState :=
  makeRequestLoop url context script 0 s

/-- The outcomes on which the loop returns `None` without touching the
error counter or the ledger: a `404`, exhaustion of the retry budget by
rate-limit responses alone (the loop condition fails and the bare
`return None` on line 307 runs), or the simulated response sequence
running out. -/
def endsSilently : List Resp → Nat → Bool
  | [], _ => true
  | resp :: rest, retryCount =>
    if retryCount > maxRetries then true
    else
      match resp with
      | .rateLimited _ => endsSilently rest (retryCount + 1)
      | .notFound => true
      | .serverError _ _ =>
        if retryCount < maxRetries then endsSilently rest (retryCount + 1) else false
      | .timedOut =>
        if retryCount < maxRetries then endsSilently rest (retryCount + 1) else false
      | .transportError _ =>
        if retryCount < maxRetries then endsSilently rest (retryCount + 1) else false
      | _ => false

/-! ## The caches, the group resolver and its callers

The remote service is a pure `World`; the auditor's five caches,
counters and the set of currently held per-group `asyncio.Lock`s are an
explicit `AuditorState`.  Each fetch that reaches the network counts as
one API call (the success path of `_make_request`; a world answer of
`none` stands for any of its `None` outcomes). -/

/-- A security-group record from `_apis/graph/groups`.  `projectId`
records which project the group belongs to in the modelled
organization; the source code never reads it, it only serves to state
claims about project scoping. -/
structure AdoGroup where
  descriptor : Option String
  displayName : Option String
  projectId : String
deriving DecidableEq

/-- The remote directory/collaboration service, as a pure map. -/
structure World where
  /-- `_apis/graph/memberships/{descriptor}?direction=down`: the list of
  `memberDescriptor` values of the response, or `none` on any failed or
  value-less response. -/
  memberships : String → Option (List String)
  /-- `_apis/graph/users|groups/{descriptor}`: identity details. -/
  identities : String → Option Identity
  /-- `_apis/graph/groups` with no scope parameter: every group of the
  whole organization. -/
  allGroups : Option (List AdoGroup)

/-- The mutable state of an `AzureDevOpsAuditor` instance: the caches
created in `__init__` (lines 115-133), the cache statistics, the
relevant run statistics and, for the per-group locks, the set of group
descriptors whose `asyncio.Lock` is currently held by the running
task. -/
structure AuditorState where
  aadGroupMembersCache : List (String × List Identity)
  identityCache : List (String × Identity)
  vstsGroupMembershipCache : List (String × List String)
  projectGroupsCache : List (String × List AdoGroup)
  heldLocks : List String
  aadGroupHits : Nat
  aadGroupMisses : Nat
  userHits : Nat
  userMisses : Nat
  groupMembershipHits : Nat
  groupMembershipMisses : Nat
  aadGroupsResolved : Nat
  apiCalls : Nat
deriving DecidableEq

/-- The state right after `__init__`: every cache empty, all counters
zero, no lock held. -/
def initState : AuditorState :=
  { aadGroupMembersCache := [], identityCache := [],
    vstsGroupMembershipCache := [], projectGroupsCache := [],
    heldLocks := [], aadGroupHits := 0, aadGroupMisses := 0,
    userHits := 0, userMisses := 0, groupMembershipHits := 0,
    groupMembershipMisses := 0, aadGroupsResolved := 0, apiCalls := 0 }

/-- Embedding of `get_identity_details` (lines 431-475): identity cache
check, then fetch and cache on a miss. -/
def getIdentityDetails (w : World) (s : AuditorState) (descriptor : String) :
    Option Identity × AuditorState :=
  match cacheGet s.identityCache descriptor with
  | some cached => (some cached, { s with userHits := s.userHits + 1 })
  | none =>
    let s := { s with userMisses := s.userMisses + 1, apiCalls := s.apiCalls + 1 }
    match w.identities descriptor with
    | none => (none, s)
    | some details =>
      (some details,
       { s with identityCache := cachePut s.identityCache descriptor details })

/-- Embedding of `get_group_members` (lines 387-429): direct members of
a platform group, cached under `f"{project_name}:{group_descriptor}"`;
a failed or value-less fetch caches and returns the empty list. -/
def getGroupMembers (w : World) (s : AuditorState)
    (group_descriptor _group_name project_name : String) :
    List String × AuditorState :=
  let cache_key := project_name ++ ":" ++ group_descriptor
  match cacheGet s.vstsGroupMembershipCache cache_key with
  | some members =>
    (members, { s with groupMembershipHits := s.groupMembershipHits + 1 })
  | none =>
    let s := { s with
      groupMembershipMisses := s.groupMembershipMisses + 1
      apiCalls := s.apiCalls + 1 }
    match w.memberships group_descriptor with
    | none =>
      ([], { s with
        vstsGroupMembershipCache := cachePut s.vstsGroupMembershipCache cache_key [] })
    | some members =>
      (members, { s with
        vstsGroupMembershipCache := cachePut s.vstsGroupMembershipCache cache_key members })

/-- Embedding of `get_project_groups` (lines 348-385): cached under the
project id; on a miss it requests `_apis/graph/groups` with no scope
parameter, so the response covers the entire organization, and the
function returns and caches that response as-is (no filtering step
exists in the body).  A failed fetch returns `[]` uncached. -/
def getProjectGroups (w : World) (s : AuditorState)
    (project_id _project_name : String) : List AdoGroup × AuditorState :=
  match cacheGet s.projectGroupsCache project_id with
  | some groups =>
    (groups, { s with groupMembershipHits := s.groupMembershipHits + 1 })
  | none =>
    let s := { s with
      groupMembershipMisses := s.groupMembershipMisses + 1
      apiCalls := s.apiCalls + 1 }
    match w.allGroups with
    | none => ([], s)
    | some groups =>
      (groups, { s with projectGroupsCache := cachePut s.projectGroupsCache project_id groups })

/-- A value of the dynamically-typed `all_resolved_members` list inside
`resolve_aad_group_members`: leaf identities are appended as plain
dicts (line 574) while recursively resolved members arrive as
`(member, chain)` tuples (lines 568-571). -/
inductive PyVal where
  | dict (member : Identity)
  | tuple (member : Identity) (chain : String)
deriving DecidableEq

/-- The `isinstance(m, dict)` test of line 577. -/
def PyVal.isDict : PyVal → Bool
  | .dict _ => true
  | .tuple _ _ => false

/-- The list comprehension of line 577:
`[m for m in all_resolved_members if isinstance(m, dict)]`. -/
def pyDictFilter : List PyVal → List Identity
  | [] => []
  | .dict m :: rest => m :: pyDictFilter rest
  | .tuple _ _ :: rest => pyDictFilter rest

/-- `" > ".join(new_chain)`. -/
def joinChain (chain : List String) : String :=
  String.intercalate " > " chain

/-- The two mutually recursive activities of
`resolve_aad_group_members`: entering a group, and the
`for membership in memberships` loop over its direct members. -/
inductive RCall where
  | resolve (group_descriptor group_name : String) (chain : List String)
  | memberLoop (group_name : String) (chain : List String)
      (pending : List String) (acc : List PyVal)
deriving DecidableEq

/-- Result of a resolver activity.  `deadlock` marks the attempt to
re-acquire, from the same task, a non-reentrant `asyncio.Lock` that the
task already holds: the `await` never completes. -/
inductive RRes where
  | resolved (out : List (Identity × String)) (s : AuditorState)
  | members (acc : List PyVal) (s : AuditorState)
  | deadlock (s : AuditorState)
  | outOfFuel
deriving DecidableEq

/-- Whether a resolver run completed normally. -/
def RRes.isResolved : RRes → Bool
  | .resolved _ _ => true
  | _ => false

/-- The returned member list of a completed run. -/
def RRes.outList : RRes → Option (List (Identity × String))
  | .resolved out _ => some out
  | _ => none

/-- The final state of a completed run. -/
def RRes.outState : RRes → Option AuditorState
  | .resolved _ s => some s
  | _ => none

/-- Embedding of `resolve_aad_group_members` (lines 477-589), fuelled.

`.resolve` follows the body in source order: the cycle check of line
503 tests the group **descriptor** for membership in `chain`, a list to
which only display **names** are ever appended; then the cache check
(line 508), the per-descriptor lock (lines 521-522, a held lock
re-acquired by the same task deadlocks), the double-checked cache
read (line 524), the membership fetch (lines 534-542, failure caches
`[]`), the member loop, the `isinstance(m, dict)` leaf filter and cache
store (lines 576-578), and the final pairing of each leaf with
`" > ".join(chain + [group_name])` (lines 586-589).

`.memberLoop` follows lines 548-574: skip empty member descriptors,
fetch identity details through the identity cache (skip on failure),
recurse on `subjectKind == "group"` extending `acc` with the returned
pairs as tuples, and append any other identity as a plain dict. -/
def resolveGo : Nat → World → AuditorState → RCall → RRes
  | 0, _, _, _ => .outOfFuel
  | fuel + 1, w, s, .resolve group_descriptor group_name chain =>
    if group_descriptor ∈ chain then
      .resolved [] s
    else
      match cacheGet s.aadGroupMembersCache group_descriptor with
      | some cached_members =>
        let s := { s with aadGroupHits := s.aadGroupHits + 1 }
        let chain_str := joinChain (chain ++ [group_name])
        .resolved (cached_members.map (fun m => (m, chain_str))) s
      | none =>
        let s := { s with aadGroupMisses := s.aadGroupMisses + 1 }
        if group_descriptor ∈ s.heldLocks then
          .deadlock s
        else
          let s := { s with heldLocks := group_descriptor :: s.heldLocks }
          match cacheGet s.aadGroupMembersCache group_descriptor with
          | some cached_members =>
            let s := { s with
              aadGroupHits := s.aadGroupHits + 1
              heldLocks := s.heldLocks.erase group_descriptor }
            let chain_str := joinChain (chain ++ [group_name])
            .resolved (cached_members.map (fun m => (m, chain_str))) s
          | none =>
            let s := { s with apiCalls := s.apiCalls + 1 }
            match w.memberships group_descriptor with
            | none =>
              let s := { s with
                aadGroupMembersCache :=
                  cachePut s.aadGroupMembersCache group_descriptor []
                heldLocks := s.heldLocks.erase group_descriptor }
              .resolved [] s
            | some memberships =>
              match resolveGo fuel w s (.memberLoop group_name chain memberships []) with
              | .members all_resolved_members s =>
                let leaf_members := pyDictFilter all_resolved_members
                let s := { s with
                  aadGroupMembersCache :=
                    cachePut s.aadGroupMembersCache group_descriptor leaf_members
                  aadGroupsResolved := s.aadGroupsResolved + 1
                  heldLocks := s.heldLocks.erase group_descriptor }
                let chain_str := joinChain (chain ++ [group_name])
                .resolved (leaf_members.map (fun m => (m, chain_str))) s
              | .resolved _ _ => .outOfFuel
              | .deadlock s => .deadlock s
              | .outOfFuel => .outOfFuel
  | fuel + 1, w, s, .memberLoop group_name chain pending acc =>
    match pending with
    | [] => .members acc s
    | member_descriptor :: rest =>
      if member_descriptor = "" then
        resolveGo fuel w s (.memberLoop group_name chain rest acc)
      else
        match getIdentityDetails w s member_descriptor with
        | (none, s) => resolveGo fuel w s (.memberLoop group_name chain rest acc)
        | (some member_details, s) =>
          if member_details.subjectKind.getD "" = "group" then
            let member_display_name := member_details.displayName.getD "Unknown Group"
            match resolveGo fuel w s
                (.resolve member_descriptor member_display_name (chain ++ [group_name])) with
            | .resolved nested_members s =>
              resolveGo fuel w s (.memberLoop group_name chain rest
                (acc ++ nested_members.map (fun p => PyVal.tuple p.1 p.2)))
            | .members _ _ => .outOfFuel
            | .deadlock s => .deadlock s
            | .outOfFuel => .outOfFuel
          else
            resolveGo fuel w s (.memberLoop group_name chain rest (acc ++ [.dict member_details]))

/-! ## The single-flight protocol under concurrency

`resolve_aad_group_members` guards each group descriptor with a lazily
created `asyncio.Lock` (lines 150-154) around a double-checked cache
read (lines 507-529).  For one uncached descriptor and `n` concurrent
callers this is modelled as an interleaved transition system: every
`await` is a scheduling point, each caller runs cache check → lock
acquisition → double-checked cache read → fetch-and-expand, and the
fetch-and-expand (executed while the lock is held, so no other caller's
transition can observe its intermediate states) produces the
deterministic value `fetchVal` and stores it in the cache before the
lock is released. -/

/-- Program counter of one concurrent caller of
`resolve_aad_group_members` for a fixed uncached descriptor. -/
inductive SFPc (V : Type) where
  | start
  | waitLock
  | locked
  | finished (v : V)
deriving DecidableEq

/-- Shared state of the single-flight protocol: the
`aad_group_members_cache` entry for the descriptor, the owner of its
`asyncio.Lock`, how many times the fetch-and-expand sequence ran, and
each caller's program counter. -/
structure SFState (n : Nat) (V : Type) where
  cache : Option V
  lockOwner : Option (Fin n)
  fetchCount : Nat
  pc : Fin n → SFPc V

/-- All callers at the initial cache check, descriptor uncached, lock
free, fetch never run. -/
def sfInit (n : Nat) (V : Type) : SFState n V :=
  { cache := none, lockOwner := none, fetchCount := 0, pc := fun _ => SFPc.start }

/-- One interleaving step of one caller.  `cacheHit` is the lock-free
cache check of line 508; `cacheMiss` falls through to the lock of line
521; `acquire` is `async with lock` granting the free lock; `recheckHit`
is the double-checked read of line 524 returning the cached value and
releasing the lock; `fetch` is the fetch-and-expand run under the lock,
storing its result (line 578) and releasing the lock. -/
inductive SFStep (n : Nat) (V : Type) (fetchVal : V) :
    SFState n V → SFState n V → Prop where
  | cacheHit (s : SFState n V) (i : Fin n) (v : V) :
      s.pc i = SFPc.start → s.cache = some v →
      SFStep n V fetchVal s { s with pc := Function.update s.pc i (SFPc.finished v) }
  | cacheMiss (s : SFState n V) (i : Fin n) :
      s.pc i = SFPc.start → s.cache = none →
      SFStep n V fetchVal s { s with pc := Function.update s.pc i SFPc.waitLock }
  | acquire (s : SFState n V) (i : Fin n) :
      s.pc i = SFPc.waitLock → s.lockOwner = none →
      SFStep n V fetchVal s
        { s with lockOwner := some i, pc := Function.update s.pc i SFPc.locked }
  | recheckHit (s : SFState n V) (i : Fin n) (v : V) :
      s.pc i = SFPc.locked → s.lockOwner = some i → s.cache = some v →
      SFStep n V fetchVal s
        { s with lockOwner := none, pc := Function.update s.pc i (SFPc.finished v) }
  | fetch (s : SFState n V) (i : Fin n) :
      s.pc i = SFPc.locked → s.lockOwner = some i → s.cache = none →
      SFStep n V fetchVal s
        { s with cache := some fetchVal, fetchCount := s.fetchCount + 1,
                 lockOwner := none, pc := Function.update s.pc i (SFPc.finished fetchVal) }

/-- States reachable by any interleaving of the `n` callers. -/
def SFReachable (n : Nat) (V : Type) (fetchVal : V) (s : SFState n V) : Prop :=
  Relation.ReflTransGen (SFStep n V fetchVal) (sfInit n V) s

/-- Inductive invariant of the protocol: the cache only ever holds the
fetched value, the fetch has run exactly as often as the cache is
populated (so at most once), and a finished caller holds the fetched
value with the cache populated. -/
def SFInv {n : Nat} {V : Type} (fetchVal : V) (s : SFState n V) : Prop :=
  (∀ v, s.cache = some v → v = fetchVal) ∧
  (s.cache = none → s.fetchCount = 0) ∧
  (∀ v, s.cache = some v → s.fetchCount = 1) ∧
  (∀ i v, s.pc i = SFPc.finished v → v = fetchVal ∧ s.cache = some fetchVal)

theorem sfInv_init (n : Nat) (V : Type) (fetchVal : V) : SFInv fetchVal (sfInit n V) := by
  refine ⟨?_, ?_, ?_, ?_⟩ <;> intros <;> simp_all [sfInit]

theorem sfInv_step {n : Nat} {V : Type} {fetchVal : V} {s t : SFState n V}
    (hinv : SFInv fetchVal s) (hstep : SFStep n V fetchVal s t) : SFInv fetchVal t := by
  obtain ⟨h1, h2, h3, h4⟩ := hinv
  cases hstep with
  | cacheHit i v hpc hc =>
    refine ⟨h1, h2, h3, ?_⟩
    intro j u hj
    simp only [Function.update_apply] at hj
    by_cases hij : j = i
    · rw [if_pos hij] at hj
      cases hj
      refine ⟨h1 v hc, ?_⟩
      show _ = some fetchVal
      rw [hc, h1 v hc]
    · rw [if_neg hij] at hj
      exact h4 j u hj
  | cacheMiss i hpc hc =>
    refine ⟨h1, h2, h3, ?_⟩
    intro j u hj
    simp only [Function.update_apply] at hj
    by_cases hij : j = i
    · rw [if_pos hij] at hj
      cases hj
    · rw [if_neg hij] at hj
      exact h4 j u hj
  | acquire i hpc hl =>
    refine ⟨h1, h2, h3, ?_⟩
    intro j u hj
    simp only [Function.update_apply] at hj
    by_cases hij : j = i
    · rw [if_pos hij] at hj
      cases hj
    · rw [if_neg hij] at hj
      exact h4 j u hj
  | recheckHit i v hpc hl hc =>
    refine ⟨h1, h2, h3, ?_⟩
    intro j u hj
    simp only [Function.update_apply] at hj
    by_cases hij : j = i
    · rw [if_pos hij] at hj
      cases hj
      refine ⟨h1 v hc, ?_⟩
      show _ = some fetchVal
      rw [hc, h1 v hc]
    · rw [if_neg hij] at hj
      exact h4 j u hj
  | fetch i hpc hl hc =>
    refine ⟨?_, ?_, ?_, ?_⟩
    · intro v hv
      cases hv
      rfl
    · intro hnone
      cases hnone
    · intro v _
      show _ + 1 = 1
      rw [h2 hc]
    · intro j u hj
      simp only [Function.update_apply] at hj
      by_cases hij : j = i
      · rw [if_pos hij] at hj
        cases hj
        exact ⟨rfl, rfl⟩
      · rw [if_neg hij] at hj
        obtain ⟨hu, hcache⟩ := h4 j u hj
        rw [hc] at hcache
        cases hcache

theorem sfInv_reachable {n : Nat} {V : Type} {fetchVal : V} {s : SFState n V}
    (h : SFReachable n V fetchVal s) : SFInv fetchVal s := by
  induction h with
  | refl => exact sfInv_init n V fetchVal
  | tail _ hstep ih => exact sfInv_step ih hstep

/-! ## Concrete scenarios -/

/-- Whether a resolver run ended in the lock re-acquisition deadlock. -/
def RRes.isDeadlock : RRes → Bool
  | .deadlock _ => true
  | _ => false

/-- Directory group A of the cyclic scenario: descriptor `aadgp.A`,
display name `GroupA`. -/
def idGroupA : Identity :=
  { descriptor := some "aadgp.A", displayName := some "GroupA",
    principalName := none, subjectKind := some "group", domain := none,
    originId := none }

/-- Directory group B of the cyclic scenario. -/
def idGroupB : Identity :=
  { descriptor := some "aadgp.B", displayName := some "GroupB",
    principalName := none, subjectKind := some "group", domain := none,
    originId := none }

/-- A membership graph with the cycle A → B → A, display names distinct
from descriptors as they are for every real directory group. -/
def cycleWorld : World :=
  { memberships := fun d =>
      if d = "aadgp.A" then some ["aadgp.B"]
      else if d = "aadgp.B" then some ["aadgp.A"]
      else none
    identities := fun d =>
      if d = "aadgp.A" then some idGroupA
      else if d = "aadgp.B" then some idGroupB
      else none
    allGroups := none }

/-- Leaf user U of the nesting scenario A → B → U. -/
def idUserU : Identity :=
  { descriptor := some "aad.U", displayName := some "User U",
    principalName := some "u@example.org", subjectKind := some "user",
    domain := some "example.org", originId := some "origin-u" }

/-- Directory group A (display name `"A"`) of the nesting scenario. -/
def idNestA : Identity :=
  { descriptor := some "aadgp.A", displayName := some "A",
    principalName := none, subjectKind := some "group", domain := none,
    originId := none }

/-- Directory group B (display name `"B"`) of the nesting scenario. -/
def idNestB : Identity :=
  { descriptor := some "aadgp.B", displayName := some "B",
    principalName := none, subjectKind := some "group", domain := none,
    originId := none }

/-- The acyclic nesting AAD group A → AAD group B → user U, every fetch
answered. -/
def nestWorld : World :=
  { memberships := fun d =>
      if d = "aadgp.A" then some ["aadgp.B"]
      else if d = "aadgp.B" then some ["aad.U"]
      else none
    identities := fun d =>
      if d = "aadgp.A" then some idNestA
      else if d = "aadgp.B" then some idNestB
      else if d = "aad.U" then some idUserU
      else none
    allGroups := none }

/-- A security group belonging to project `p1`. -/
def groupTeam1 : AdoGroup :=
  { descriptor := some "vssgp.T1", displayName := some "Team1", projectId := "p1" }

/-- A security group belonging to project `p2`. -/
def groupTeam2 : AdoGroup :=
  { descriptor := some "vssgp.T2", displayName := some "Team2", projectId := "p2" }

/-- An organization with two projects, each owning one security group. -/
def orgWorld : World :=
  { memberships := fun _ => none
    identities := fun _ => none
    allGroups := some [groupTeam1, groupTeam2] }

/-! ## Claim C1 -/

/-- C1: the claim asserts that resolution of a cyclic group graph
(A → B → A) always terminates, aborting the re-entered branch with an
empty result.  On the code this is false: the cycle check of line 503
tests the entered group's **descriptor** for membership in `chain`,
but `chain` only ever receives display **names** (lines 514, 527, 569,
587), so for real groups (whose descriptors differ from their display
names) the cycle is never detected; the recursion re-enters group A and
awaits A's non-reentrant `asyncio.Lock`, which the same task already
holds — the resolution deadlocks for every fuel bound instead of
terminating with `[]`. -/
theorem cycle_resolution_never_completes :
    (∀ fuel, (resolveGo fuel cycleWorld initState
        (RCall.resolve "aadgp.A" "GroupA" [])).isResolved = false) ∧
    (resolveGo 9 cycleWorld initState
        (RCall.resolve "aadgp.A" "GroupA" [])).isDeadlock = true := by
  constructor
  · intro fuel
    match fuel with
    | 0 => rfl
    | 1 => rfl
    | 2 => rfl
    | 3 => rfl
    | 4 => rfl
    | n + 5 => rfl
  · rfl

/-! ## Claim C2 -/

/-- C2: the claim asserts that resolving A in the scenario
A → B → user U returns U paired with chain `"A > B"` and caches the
flattened leaf set `[U]` under A's descriptor.  On the code this is
false: B's recursive resolution correctly produces `[(U, "A > B")]` and
caches `[U]` under B, but the caller extends `all_resolved_members`
with those `(member, chain)` **tuples** (line 571) and then keeps only
`isinstance(m, dict)` values (line 577), so every nested leaf is
dropped — resolving A returns `[]` and caches `[]` under A. -/
theorem nested_resolution_drops_leaves :
    (resolveGo 10 nestWorld initState (RCall.resolve "aadgp.A" "A" [])).outList =
      some [] ∧
    (resolveGo 10 nestWorld initState (RCall.resolve "aadgp.A" "A" [])).outList ≠
      some [(idUserU, "A > B")] ∧
    ((resolveGo 10 nestWorld initState (RCall.resolve "aadgp.A" "A" [])).outState).map
      (fun s => cacheGet s.aadGroupMembersCache "aadgp.A") = some (some []) ∧
    ((resolveGo 10 nestWorld initState (RCall.resolve "aadgp.A" "A" [])).outState).map
      (fun s => cacheGet s.aadGroupMembersCache "aadgp.B") = some (some [idUserU]) := by
  refine ⟨rfl, ?_, rfl, rfl⟩
  decide

/-! ## Claim C4 -/

/-- C4: the claim asserts that `get_project_groups` returns (and
caches) only the given project's security groups.  On the code this is
false: the request goes to `_apis/graph/groups` with no scope parameter
(the comment on line 371 promises post-fetch filtering, but no filter
exists in the body), so the full organization-wide group list is
returned and cached under the project id — here project `p1` receives
and caches `Team2`, which belongs to project `p2`. -/
theorem project_groups_unfiltered :
    groupTeam2 ∈ (getProjectGroups orgWorld initState "p1" "ProjectOne").1 ∧
    groupTeam2.projectId ≠ "p1" ∧
    cacheGet (getProjectGroups orgWorld initState "p1" "ProjectOne").2.projectGroupsCache
        "p1" = some [groupTeam1, groupTeam2] := by
  refine ⟨?_, ?_, ?_⟩ <;> decide

/-! ## Claim C5 -/

/-- C5 counterexample: the claim asserts that after any number of 429
retries the first subsequent 5xx retry still waits `2^0 = 1` second.
On the code a single shared `retry_count` is incremented by the 429
path (line 212) and used as the backoff exponent (line 244), so after
one 429 the first 5xx retry waits `2^1 = 2` seconds. -/
theorem rate_limit_advances_backoff :
    (makeRequest "u" "c"
        [Resp.rateLimited none, Resp.serverError 500 "e", Resp.okJson "v"]
        initReq).2.sleeps = [60, 2] ∧
    (2 : Nat) ≠ backoffBase ^ 0 := by
  exact ⟨rfl, by decide⟩

/-- C5 amended: a 429 consumes the shared retry budget **and** advances
the shared backoff exponent — waits grow as `2 ^ (number of prior
retries of any kind)`, so after `k` rate-limit retries the first
subsequent 5xx retry waits `2^k` seconds (here `k ≤ 2` keeps the
shared budget from exhausting before the 5xx retry and final
success). -/
theorem rate_limit_shares_backoff_exponent (k : Nat) (v : String) (hk : k ≤ 2) :
    makeRequest "u" "c"
      (List.replicate k (Resp.rateLimited none) ++
        [Resp.serverError 500 "e", Resp.okJson v]) initReq =
    (some v,
     { apiCalls := k + 2, apiErrors := 0, rateLimitHits := k,
       sleeps := List.replicate k 60 ++ [backoffBase ^ k], errors := [] }) := by
  interval_cases k <;> rfl

/-- C5 amended, witnessed at `k = 1`: one rate-limit retry, then a
server-error retry waiting `2^1 = 2` seconds, then success. -/
theorem rate_limit_shares_backoff_exponent_witness :
    makeRequest "u" "c"
      (List.replicate 1 (Resp.rateLimited none) ++
        [Resp.serverError 500 "e", Resp.okJson "body"]) initReq =
    (some "body",
     { apiCalls := 1 + 2, apiErrors := 0, rateLimitHits := 1,
       sleeps := List.replicate 1 60 ++ [backoffBase ^ 1], errors := [] }) :=
  rate_limit_shares_backoff_exponent 1 "body" (by decide)

/-! ## Claim C6 -/

/-- C6 counterexample: the claim asserts that **every** non-success
outcome increments `api_errors` and appends an error record — including
exhausting the retry budget on repeated 429 responses.  On the code,
four consecutive 429s drive `retry_count` past `max_retries` and the
loop falls through to the bare `return None` of line 307: no counter is
touched and nothing is appended to the ledger. -/
theorem rate_limit_exhaustion_logs_nothing :
    makeRequest "u" "c" (List.replicate 4 (Resp.rateLimited none)) initReq =
      (none,
       { apiCalls := 4, apiErrors := 0, rateLimitHits := 4,
         sleeps := [60, 60, 60, 60], errors := [] }) := rfl

/-- C6 amended: every `None` outcome of `_make_request` increments
`api_errors` by one and appends exactly one structured record
`{timestamp, error_type, url, context, status, message}` to the error
ledger, **except** the silent outcomes: a 404, or exhaustion of the
retry budget by rate-limit responses alone (and, in the model, running
out of scripted responses). -/
theorem error_ledger (url context : String) (script : List Resp) (retryCount : Nat)
    (s : ReqState)
    (hNone : (makeRequestLoop url context script retryCount s).1 = none) :
    if endsSilently script retryCount then
      (makeRequestLoop url context script retryCount s).2.apiErrors = s.apiErrors ∧
      (makeRequestLoop url context script retryCount s).2.errors = s.errors
    else
      (makeRequestLoop url context script retryCount s).2.apiErrors = s.apiErrors + 1 ∧
      ∃ rec, (makeRequestLoop url context script retryCount s).2.errors =
        s.errors ++ [rec] := by
  induction script generalizing retryCount s with
  | nil => simp [makeRequestLoop, endsSilently]
  | cons resp rest ih =>
    by_cases hrc : retryCount > maxRetries
    · simp [makeRequestLoop, endsSilently, hrc]
    · cases resp with
      | rateLimited ra =>
        simp only [makeRequestLoop, endsSilently, if_neg hrc] at hNone ⊢
        exact ih (retryCount + 1) _ hNone
      | notFound =>
        simp [makeRequestLoop, endsSilently, hrc]
      | authFailed status body =>
        simp only [makeRequestLoop, endsSilently, if_neg hrc]
        exact ⟨rfl, _, rfl⟩
      | clientError status body =>
        simp only [makeRequestLoop, endsSilently, if_neg hrc]
        exact ⟨rfl, _, rfl⟩
      | serverError status body =>
        by_cases hlt : retryCount < maxRetries
        · simp only [makeRequestLoop, endsSilently, if_neg hrc, if_pos hlt] at hNone ⊢
          exact ih (retryCount + 1) _ hNone
        · simp only [makeRequestLoop, endsSilently, if_neg hrc, if_neg hlt]
          exact ⟨rfl, _, rfl⟩
      | okJson body =>
        simp [makeRequestLoop, hrc] at hNone
      | decodeFailure status msg =>
        simp only [makeRequestLoop, endsSilently, if_neg hrc]
        exact ⟨rfl, _, rfl⟩
      | timedOut =>
        by_cases hlt : retryCount < maxRetries
        · simp only [makeRequestLoop, endsSilently, if_neg hrc, if_pos hlt] at hNone ⊢
          exact ih (retryCount + 1) _ hNone
        · simp only [makeRequestLoop, endsSilently, if_neg hrc, if_neg hlt]
          exact ⟨rfl, _, rfl⟩
      | transportError msg =>
        by_cases hlt : retryCount < maxRetries
        · simp only [makeRequestLoop, endsSilently, if_neg hrc, if_pos hlt] at hNone ⊢
          exact ih (retryCount + 1) _ hNone
        · simp only [makeRequestLoop, endsSilently, if_neg hrc, if_neg hlt]
          exact ⟨rfl, _, rfl⟩

/-- C6 amended, witnessed on a 401 response: the outcome is `None`, is
not silent, and the ledger gains exactly the auth-error record. -/
theorem error_ledger_witness :
    (makeRequestLoop "u" "c" [Resp.authFailed 401 "denied"] 0 initReq).2.apiErrors =
      initReq.apiErrors + 1 ∧
    ∃ rec, (makeRequestLoop "u" "c" [Resp.authFailed 401 "denied"] 0 initReq).2.errors =
      initReq.errors ++ [rec] := by
  have h := error_ledger "u" "c" [Resp.authFailed 401 "denied"] 0 initReq rfl
  simpa using h

/-! ## Claim C7 -/

/-- C7: on 5xx, timeout or transport failures `_make_request` retries
up to 3 times with the strictly increasing waits `2^0, 2^1, 2^2`; a
server returning 500 twice then 200 causes exactly 2 retries and the
parsed body is returned; exhausting all retries appends the
corresponding error record (`server_error` / `timeout` /
`client_exception`) and returns `None`. -/
theorem retry_backoff_behavior (v : String) :
    makeRequest "u" "c"
        [Resp.serverError 500 "e1", Resp.serverError 500 "e2", Resp.okJson v] initReq =
      (some v,
       { apiCalls := 3, apiErrors := 0, rateLimitHits := 0,
         sleeps := [1, 2], errors := [] }) ∧
    ((1 : Nat) < 2 ∧ (2 : Nat) < 4 ∧
      ([1, 2, 4] : List Nat) = [backoffBase ^ 0, backoffBase ^ 1, backoffBase ^ 2]) ∧
    makeRequest "u" "c" (List.replicate 4 (Resp.serverError 500 "e")) initReq =
      (none,
       { apiCalls := 4, apiErrors := 1, rateLimitHits := 0, sleeps := [1, 2, 4],
         errors := [{ timestamp := 4, error_type := "server_error", url := "u",
                      context := "c", status := 500, message := "e" }] }) ∧
    makeRequest "u" "c" (List.replicate 4 Resp.timedOut) initReq =
      (none,
       { apiCalls := 4, apiErrors := 1, rateLimitHits := 0, sleeps := [1, 2, 4],
         errors := [{ timestamp := 4, error_type := "timeout", url := "u",
                      context := "c", status := 0, message := "Request timeout" }] }) ∧
    makeRequest "u" "c" (List.replicate 4 (Resp.transportError "broken")) initReq =
      (none,
       { apiCalls := 4, apiErrors := 1, rateLimitHits := 0, sleeps := [1, 2, 4],
         errors := [{ timestamp := 4, error_type := "client_exception", url := "u",
                      context := "c", status := 0, message := "broken" }] }) := by
  exact ⟨rfl, by decide, rfl, rfl, rfl⟩

/-! ## Cache behaviour of the resolver (claims C8, C10) -/

/-- A resolver call on a cached descriptor (with no spurious
cycle-check hit) takes the cache-hit path of lines 508-516: it returns
the cached leaf members paired with the chain rebuilt from the current
calling path, increments only the hit counter, and touches nothing
else — in particular it makes no API call. -/
theorem resolve_cache_hit (fuel : Nat) (w : World) (s : AuditorState)
    (desc name : String) (chain : List String) (cached : List Identity)
    (h : desc ∉ chain) (hc : cacheGet s.aadGroupMembersCache desc = some cached) :
    resolveGo (fuel + 1) w s (RCall.resolve desc name chain) =
      RRes.resolved (cached.map (fun m => (m, joinChain (chain ++ [name]))))
        { s with aadGroupHits := s.aadGroupHits + 1 } := by
  simp only [resolveGo]
  rw [if_neg h, hc]

/-- Any resolver call that completes normally leaves its descriptor
cached: every `.resolved`-returning branch except the cycle check
(excluded by `desc ∉ chain`) either found the cache populated or
populated it itself. -/
theorem resolved_caches (fuel : Nat) (w : World) (s : AuditorState)
    (desc name : String) (chain : List String) (out : List (Identity × String))
    (s1 : AuditorState) (h : desc ∉ chain)
    (hr : resolveGo fuel w s (RCall.resolve desc name chain) = RRes.resolved out s1) :
    ∃ cached, cacheGet s1.aadGroupMembersCache desc = some cached := by
  match fuel with
  | 0 => exact absurd hr (by simp [resolveGo])
  | fuel + 1 =>
    simp only [resolveGo] at hr
    rw [if_neg h] at hr
    rcases hcg : cacheGet s.aadGroupMembersCache desc with _ | cached
    · rw [hcg] at hr
      dsimp only at hr
      split at hr
      · cases hr
      · split at hr
        · cases hr
          exact ⟨[], cacheGet_cachePut_self _ desc []⟩
        · split at hr
          all_goals cases hr
          exact ⟨_, cacheGet_cachePut_self _ desc _⟩
    · rw [hcg] at hr
      cases hr
      exact ⟨cached, hcg⟩

/-! ## Claim C8 -/

/-- C8: after a completed resolution of a group descriptor, a second
sequential resolution of the same descriptor is served entirely from
the cache: the descriptor is cached, the second call returns exactly
the cached leaf members each paired with a chain string rebuilt from
the second call's own calling path, and the only state change is the
AAD-group hit counter incrementing — so in particular zero additional
network requests are made. -/
theorem resolve_twice_cache_hit (fuel fuel2 : Nat) (w : World) (s : AuditorState)
    (desc name name2 : String) (chain chain2 : List String)
    (out : List (Identity × String)) (s1 : AuditorState)
    (h1 : desc ∉ chain) (h2 : desc ∉ chain2)
    (hrun : resolveGo fuel w s (RCall.resolve desc name chain) = RRes.resolved out s1) :
    ∃ cached,
      cacheGet s1.aadGroupMembersCache desc = some cached ∧
      resolveGo (fuel2 + 1) w s1 (RCall.resolve desc name2 chain2) =
        RRes.resolved (cached.map (fun m => (m, joinChain (chain2 ++ [name2]))))
          { s1 with aadGroupHits := s1.aadGroupHits + 1 } ∧
      ({ s1 with aadGroupHits := s1.aadGroupHits + 1 }).apiCalls = s1.apiCalls := by
  obtain ⟨cached, hc⟩ := resolved_caches fuel w s desc name chain out s1 h1 hrun
  exact ⟨cached, hc, resolve_cache_hit fuel2 w s1 desc name2 chain2 cached h2 hc, rfl⟩

/-- The state after the first resolution of group B (descriptor
`aadgp.B`, one direct user member) in `nestWorld`, computed by hand
from the embedding. -/
def c8s1 : AuditorState :=
  { aadGroupMembersCache := [("aadgp.B", [idUserU])],
    identityCache := [("aad.U", idUserU)],
    vstsGroupMembershipCache := [], projectGroupsCache := [],
    heldLocks := [], aadGroupHits := 0, aadGroupMisses := 1,
    userHits := 0, userMisses := 1, groupMembershipHits := 0,
    groupMembershipMisses := 0, aadGroupsResolved := 1, apiCalls := 2 }

/-- C8 witnessed: resolve `aadgp.B` in `nestWorld`, then resolve it
again — the second call is a pure cache hit. -/
theorem resolve_twice_cache_hit_witness :
    ∃ cached,
      cacheGet c8s1.aadGroupMembersCache "aadgp.B" = some cached ∧
      resolveGo 4 nestWorld c8s1 (RCall.resolve "aadgp.B" "B2" []) =
        RRes.resolved (cached.map (fun m => (m, joinChain ([] ++ ["B2"]))))
          { c8s1 with aadGroupHits := c8s1.aadGroupHits + 1 } ∧
      ({ c8s1 with aadGroupHits := c8s1.aadGroupHits + 1 }).apiCalls = c8s1.apiCalls :=
  resolve_twice_cache_hit 5 3 nestWorld initState "aadgp.B" "B" "B2" [] []
    [(idUserU, "B")] c8s1 (by simp) (by simp) (by decide)

/-! ## Claim C10 -/

/-- A resolver call whose membership fetch fails caches the empty list
under the descriptor (line 541) and returns the empty result. -/
theorem resolve_fetch_failed (fuel : Nat) (w : World) (s : AuditorState)
    (desc name : String) (chain : List String)
    (h : desc ∉ chain) (hc : cacheGet s.aadGroupMembersCache desc = none)
    (hl : desc ∉ s.heldLocks) (hm : w.memberships desc = none) :
    resolveGo (fuel + 1) w s (RCall.resolve desc name chain) =
      RRes.resolved []
        { s with
          aadGroupMisses := s.aadGroupMisses + 1
          apiCalls := s.apiCalls + 1
          aadGroupMembersCache := cachePut s.aadGroupMembersCache desc [] } := by
  simp only [resolveGo]
  rw [if_neg h, hc]
  dsimp only
  rw [if_neg hl, hm]
  simp [List.erase_cons_head]

/-- A `get_group_members` call whose fetch fails caches the empty list
under `f"{project_name}:{group_descriptor}"` (line 420) and returns
it. -/
theorem getGroupMembers_fetch_failed (w : World) (s : AuditorState)
    (gd gn pn : String)
    (hc : cacheGet s.vstsGroupMembershipCache (pn ++ ":" ++ gd) = none)
    (hm : w.memberships gd = none) :
    getGroupMembers w s gd gn pn =
      ([], { s with
        groupMembershipMisses := s.groupMembershipMisses + 1
        apiCalls := s.apiCalls + 1
        vstsGroupMembershipCache :=
          cachePut s.vstsGroupMembershipCache (pn ++ ":" ++ gd) [] }) := by
  simp only [getGroupMembers]
  rw [hc, hm]

/-- A `get_group_members` call on a cached key is served from the cache
(lines 406-409): only the hit counter changes, no API call is made. -/
theorem getGroupMembers_cache_hit (w : World) (s : AuditorState)
    (gd gn pn : String) (members : List String)
    (hc : cacheGet s.vstsGroupMembershipCache (pn ++ ":" ++ gd) = some members) :
    getGroupMembers w s gd gn pn =
      (members, { s with groupMembershipHits := s.groupMembershipHits + 1 }) := by
  simp only [getGroupMembers]
  rw [hc]

/-- C10: a failed (or value-less) membership fetch caches the empty
list — for an AAD group in the resolver and for a platform group's
direct members alike — and every later lookup of the same key during
the run is a cache hit returning that empty list with no re-fetch, so
a transient failure permanently reports the group as memberless. -/
theorem failed_fetch_cached_empty :
    (∀ fuel fuel2 : Nat, ∀ (w : World) (s : AuditorState) (desc name name2 : String)
       (chain chain2 : List String),
       desc ∉ chain → desc ∉ chain2 →
       cacheGet s.aadGroupMembersCache desc = none → desc ∉ s.heldLocks →
       w.memberships desc = none →
       ∃ s', resolveGo (fuel + 1) w s (RCall.resolve desc name chain) =
           RRes.resolved [] s' ∧
         cacheGet s'.aadGroupMembersCache desc = some [] ∧
         resolveGo (fuel2 + 1) w s' (RCall.resolve desc name2 chain2) =
           RRes.resolved [] { s' with aadGroupHits := s'.aadGroupHits + 1 }) ∧
    (∀ (w : World) (s : AuditorState) (gd gn gn2 pn : String),
       cacheGet s.vstsGroupMembershipCache (pn ++ ":" ++ gd) = none →
       w.memberships gd = none →
       ∃ s', getGroupMembers w s gd gn pn = ([], s') ∧
         cacheGet s'.vstsGroupMembershipCache (pn ++ ":" ++ gd) = some [] ∧
         getGroupMembers w s' gd gn2 pn =
           ([], { s' with groupMembershipHits := s'.groupMembershipHits + 1 })) := by
  constructor
  · intro fuel fuel2 w s desc name name2 chain chain2 h1 h2 hc hl hm
    refine ⟨{ s with
        aadGroupMisses := s.aadGroupMisses + 1
        apiCalls := s.apiCalls + 1
        aadGroupMembersCache := cachePut s.aadGroupMembersCache desc [] },
      resolve_fetch_failed fuel w s desc name chain h1 hc hl hm, ?_, ?_⟩
    · exact cacheGet_cachePut_self _ desc []
    · have h := resolve_cache_hit fuel2 w
        { s with
          aadGroupMisses := s.aadGroupMisses + 1
          apiCalls := s.apiCalls + 1
          aadGroupMembersCache := cachePut s.aadGroupMembersCache desc [] }
        desc name2 chain2 [] h2 (cacheGet_cachePut_self _ desc [])
      simpa using h
  · intro w s gd gn gn2 pn hc hm
    refine ⟨{ s with
        groupMembershipMisses := s.groupMembershipMisses + 1
        apiCalls := s.apiCalls + 1
        vstsGroupMembershipCache :=
          cachePut s.vstsGroupMembershipCache (pn ++ ":" ++ gd) [] },
      getGroupMembers_fetch_failed w s gd gn pn hc hm, ?_, ?_⟩
    · exact cacheGet_cachePut_self _ _ []
    · exact getGroupMembers_cache_hit w _ gd gn2 pn []
        (cacheGet_cachePut_self _ _ [])

/-- C10 witnessed: a group whose fetch fails in `orgWorld` (whose
membership service answers nothing) is cached as memberless and stays
so on the next lookup, both in the resolver and for platform-group
members. -/
theorem failed_fetch_cached_empty_witness :
    (∃ s', resolveGo 3 orgWorld initState (RCall.resolve "aadgp.X" "X" []) =
        RRes.resolved [] s' ∧
      cacheGet s'.aadGroupMembersCache "aadgp.X" = some [] ∧
      resolveGo 3 orgWorld s' (RCall.resolve "aadgp.X" "X2" []) =
        RRes.resolved [] { s' with aadGroupHits := s'.aadGroupHits + 1 }) ∧
    (∃ s', getGroupMembers orgWorld initState "vssgp.G" "G" "P" = ([], s') ∧
      cacheGet s'.vstsGroupMembershipCache ("P" ++ ":" ++ "vssgp.G") = some [] ∧
      getGroupMembers orgWorld s' "vssgp.G" "G2" "P" =
        ([], { s' with groupMembershipHits := s'.groupMembershipHits + 1 })) :=
  ⟨failed_fetch_cached_empty.1 2 2 orgWorld initState "aadgp.X" "X" "X2" [] []
      (by simp) (by simp) rfl (by simp [initState]) rfl,
   failed_fetch_cached_empty.2 orgWorld initState "vssgp.G" "G" "G2" "P" rfl rfl⟩

/-! ## Claim C9 -/

/-- C9: `_determine_member_type` classifies a member by its
(lowercased) attributes — `subjectKind` `"group"` is a directory group;
`subjectKind` `"user"` with `"app@"` in the principal name or domain
`"build"` is a service principal, any other user is a user; for the
remaining subject kinds a domain containing a service-account marker
(`"serviceaccount"` or `"build"`) is a service principal, anything else
is unknown — and `_create_permission_entry` drops exactly the members
with neither a principal name nor a display name. -/
theorem member_classification (m : Identity) :
    (strToLower (m.subjectKind.getD "") = "group" →
      determineMemberType m = MemberType.aadGroup) ∧
    (strToLower (m.subjectKind.getD "") = "user" →
      (strContains (strToLower (m.principalName.getD "")) "app@" = true ∨
        strToLower (m.domain.getD "") = "build") →
      determineMemberType m = MemberType.servicePrincipal) ∧
    (strToLower (m.subjectKind.getD "") = "user" →
      ¬(strContains (strToLower (m.principalName.getD "")) "app@" = true ∨
        strToLower (m.domain.getD "") = "build") →
      determineMemberType m = MemberType.user) ∧
    (strToLower (m.subjectKind.getD "") ≠ "group" →
      strToLower (m.subjectKind.getD "") ≠ "user" →
      (strContains (strToLower (m.domain.getD "")) "serviceaccount" = true ∨
        strContains (strToLower (m.domain.getD "")) "build" = true) →
      determineMemberType m = MemberType.servicePrincipal) ∧
    (strToLower (m.subjectKind.getD "") ≠ "group" →
      strToLower (m.subjectKind.getD "") ≠ "user" →
      ¬(strContains (strToLower (m.domain.getD "")) "serviceaccount" = true ∨
        strContains (strToLower (m.domain.getD "")) "build" = true) →
      determineMemberType m = MemberType.unknown) ∧
    (∀ pn pid gname gid atype ch,
      createPermissionEntry pn pid m gname gid atype ch = none ↔
        m.principalName.getD "" = "" ∧ m.displayName.getD "" = "") := by
  refine ⟨?_, ?_, ?_, ?_, ?_, ?_⟩
  · intro hg
    simp [determineMemberType, hg]
  · intro hu hsp
    have hg : strToLower (m.subjectKind.getD "") ≠ "group" := by
      rw [hu]
      decide
    simp only [determineMemberType]
    rw [if_neg hg, if_pos hu, if_pos hsp]
  · intro hu hsp
    have hg : strToLower (m.subjectKind.getD "") ≠ "group" := by
      rw [hu]
      decide
    simp only [determineMemberType]
    rw [if_neg hg, if_pos hu, if_neg hsp]
  · intro hg hu hdom
    simp only [determineMemberType]
    rw [if_neg hg, if_neg hu, if_pos hdom]
  · intro hg hu hdom
    simp only [determineMemberType]
    rw [if_neg hg, if_neg hu, if_neg hdom]
  · intro pn pid gname gid atype ch
    by_cases hcond : m.principalName.getD "" = "" ∧ m.displayName.getD "" = ""
    · simp [createPermissionEntry, hcond]
    · simp only [createPermissionEntry]
      rw [if_neg hcond]
      simp [hcond]

/-- A member record shaped like the spec's service-principal example:
`subjectKind="user"`, `principalName="app@myorg"`. -/
def idAppUser : Identity :=
  { descriptor := some "aad.app", displayName := some "App",
    principalName := some "app@myorg", subjectKind := some "user",
    domain := some "myorg", originId := none }

/-- A member record with no usable name field at all. -/
def idAnon : Identity :=
  { descriptor := none, displayName := none, principalName := none,
    subjectKind := none, domain := none, originId := none }

/-- C9 witnessed: the app-account user classifies as a service
principal, and the nameless identity yields no permission entry. -/
theorem member_classification_witness :
    determineMemberType idAppUser = MemberType.servicePrincipal ∧
    createPermissionEntry "ProjectOne" "p1" idAnon "Team1" "vssgp.T1" "direct" "" =
      none := by
  constructor
  · exact (member_classification idAppUser).2.1 (by decide) (Or.inl (by decide))
  · exact ((member_classification idAnon).2.2.2.2.2 "ProjectOne" "p1" "Team1"
      "vssgp.T1" "direct" "").mpr ⟨rfl, rfl⟩

/-! ## Claim C3 -/

/-- C3: for `n` concurrent callers resolving one uncached group
descriptor, in every reachable interleaving of the single-flight
protocol the fetch-and-expand sequence has run at most once, it has run
exactly once as soon as any caller has finished, and all finished
callers hold the same resolved leaf-set (namely the fetched one). -/
theorem single_flight (n : Nat) (V : Type) (fetchVal : V) (s : SFState n V)
    (h : SFReachable n V fetchVal s) :
    s.fetchCount ≤ 1 ∧
    (∀ i v, s.pc i = SFPc.finished v → s.fetchCount = 1 ∧ v = fetchVal) ∧
    (∀ i j u v, s.pc i = SFPc.finished u → s.pc j = SFPc.finished v → u = v) := by
  obtain ⟨h1, h2, h3, h4⟩ := sfInv_reachable h
  refine ⟨?_, ?_, ?_⟩
  · cases hc : s.cache with
    | none =>
      rw [h2 hc]
      decide
    | some v => rw [h3 v hc]
  · intro i v hpc
    obtain ⟨hv, hcache⟩ := h4 i v hpc
    exact ⟨h3 _ hcache, hv⟩
  · intro i j u v hi hj
    rw [(h4 i u hi).1, (h4 j v hj).1]

/-- First interleaving step of the two-caller demonstration run:
caller 0 misses the cache. -/
def sfS1 : SFState 2 (List Identity) :=
  { sfInit 2 (List Identity) with
    pc := Function.update (sfInit 2 (List Identity)).pc 0 SFPc.waitLock }

/-- Caller 0 acquires the free lock. -/
def sfS2 : SFState 2 (List Identity) :=
  { sfS1 with lockOwner := some 0, pc := Function.update sfS1.pc 0 SFPc.locked }

/-- Caller 0 double-checks (still uncached), runs the fetch-and-expand,
stores `[idUserU]` and releases the lock. -/
def sfS3 : SFState 2 (List Identity) :=
  { sfS2 with
    cache := some [idUserU]
    fetchCount := sfS2.fetchCount + 1
    lockOwner := none
    pc := Function.update sfS2.pc 0 (SFPc.finished [idUserU]) }

/-- Caller 1 now hits the populated cache without ever locking. -/
def sfS4 : SFState 2 (List Identity) :=
  { sfS3 with pc := Function.update sfS3.pc 1 (SFPc.finished [idUserU]) }

/-- C3 witnessed on a concrete two-caller interleaving reaching a state
where both callers finished: the fetch ran exactly once and both hold
the same leaf-set. -/
theorem single_flight_witness :
    sfS4.fetchCount ≤ 1 ∧
    (∀ i v, sfS4.pc i = SFPc.finished v → sfS4.fetchCount = 1 ∧ v = [idUserU]) ∧
    (∀ i j u v, sfS4.pc i = SFPc.finished u → sfS4.pc j = SFPc.finished v → u = v) := by
  apply single_flight 2 (List Identity) [idUserU] sfS4
  have step1 : SFStep 2 (List Identity) [idUserU] (sfInit 2 (List Identity)) sfS1 :=
    SFStep.cacheMiss (sfInit 2 (List Identity)) 0 rfl rfl
  have step2 : SFStep 2 (List Identity) [idUserU] sfS1 sfS2 :=
    SFStep.acquire sfS1 0 (by decide) rfl
  have step3 : SFStep 2 (List Identity) [idUserU] sfS2 sfS3 :=
    SFStep.fetch sfS2 0 (by decide) rfl rfl
  have step4 : SFStep 2 (List Identity) [idUserU] sfS3 sfS4 :=
    SFStep.cacheHit sfS3 1 [idUserU] (by decide) rfl
  exact Relation.ReflTransGen.tail
    (Relation.ReflTransGen.tail
      (Relation.ReflTransGen.tail
        (Relation.ReflTransGen.tail Relation.ReflTransGen.refl step1) step2) step3) step4

end AdoAudit
